import Mathlib

/-!
Verification of the caching and canonicalization layer of the
patternfly-mcp documentation server, together with its component-schemas
tool.  The fingerprint function (`generateHash`), memoization cache,
cache-clear guard and document aggregator are modelled from the
specification because `src/server.helpers.ts` is not part of the source
tree (only its test file is); the component-schemas tool
(`searchComponents` and the tool callback) is embedded directly from
`src/tool.componentSchemas.ts`.
-/

namespace PatternflyMcp

/-! ### A computable lexicographic order on strings

The built-in `String` order does not reduce in the kernel, so we work
with an explicit character-code comparison on the underlying lists. -/

/-- Lexicographic comparison of character lists by code point. -/
def charsLe : List Char → List Char → Bool
  | [], _ => true
  | _ :: _, [] => false
  | a :: as, b :: bs =>
    if a.toNat < b.toNat then true
    else if b.toNat < a.toNat then false
    else charsLe as bs

/-- Lexicographic comparison of strings by code point. -/
def strLe (a b : String) : Bool := charsLe a.data b.data

theorem charsLe_total : ∀ a b : List Char, charsLe a b = true ∨ charsLe b a = true
  | [], _ => Or.inl rfl
  | _ :: _, [] => Or.inr rfl
  | a :: as, b :: bs => by
    rcases Nat.lt_trichotomy a.toNat b.toNat with h | h | h
    · exact Or.inl (by simp [charsLe, h])
    · have h1 : ¬ a.toNat < b.toNat := by omega
      have h2 : ¬ b.toNat < a.toNat := by omega
      rcases charsLe_total as bs with ih | ih
      · exact Or.inl (by simp [charsLe, h1, h2, ih])
      · exact Or.inr (by simp [charsLe, h1, h2, ih])
    · exact Or.inr (by simp [charsLe, h])

theorem charsLe_trans : ∀ a b c : List Char,
    charsLe a b = true → charsLe b c = true → charsLe a c = true
  | [], _, _, _, _ => rfl
  | _ :: _, [], _, hab, _ => by simp [charsLe] at hab
  | _ :: _, _ :: _, [], _, hbc => by simp [charsLe] at hbc
  | a :: as, b :: bs, c :: cs, hab, hbc => by
    simp only [charsLe] at hab hbc ⊢
    rcases Nat.lt_trichotomy a.toNat b.toNat with h1 | h1 | h1
    · rcases Nat.lt_trichotomy b.toNat c.toNat with h2 | h2 | h2
      · simp [show a.toNat < c.toNat by omega]
      · simp [show a.toNat < c.toNat by omega]
      · rw [if_neg (by omega), if_pos h2] at hbc
        exact absurd hbc (by decide)
    · rcases Nat.lt_trichotomy b.toNat c.toNat with h2 | h2 | h2
      · simp [show a.toNat < c.toNat by omega]
      · rw [if_neg (by omega), if_neg (by omega)] at hab
        rw [if_neg (by omega), if_neg (by omega)] at hbc
        rw [if_neg (show ¬ a.toNat < c.toNat by omega),
          if_neg (show ¬ c.toNat < a.toNat by omega)]
        exact charsLe_trans as bs cs hab hbc
      · rw [if_neg (by omega), if_pos h2] at hbc
        exact absurd hbc (by decide)
    · rw [if_neg (by omega), if_pos h1] at hab
      exact absurd hab (by decide)

theorem charsLe_antisymm : ∀ a b : List Char,
    charsLe a b = true → charsLe b a = true → a = b
  | [], [], _, _ => rfl
  | [], _ :: _, _, hba => by simp [charsLe] at hba
  | _ :: _, [], hab, _ => by simp [charsLe] at hab
  | a :: as, b :: bs, hab, hba => by
    simp only [charsLe] at hab hba
    rcases Nat.lt_trichotomy a.toNat b.toNat with h | h | h
    · simp [h, Nat.lt_asymm h] at hba
    · have h1 : ¬ a.toNat < b.toNat := by omega
      have h2 : ¬ b.toNat < a.toNat := by omega
      simp [h1, h2] at hab hba
      have hchar : a = b := Char.ext (UInt32.ext h)
      rw [hchar, charsLe_antisymm as bs hab hba]
    · simp [h, Nat.lt_asymm h] at hab

theorem strLe_total (a b : String) : strLe a b = true ∨ strLe b a = true :=
  charsLe_total a.data b.data

theorem strLe_trans {a b c : String} (hab : strLe a b = true) (hbc : strLe b c = true) :
    strLe a c = true :=
  charsLe_trans a.data b.data c.data hab hbc

theorem strLe_antisymm {a b : String} (hab : strLe a b = true) (hba : strLe b a = true) :
    a = b := by
  have h := charsLe_antisymm a.data b.data hab hba
  cases a; cases b; subst h; rfl

/-- `strLe` as a decidable order relation, used by the canonicalizer's sorts. -/
def strLeP (a b : String) : Prop := strLe a b = true

instance : DecidableRel strLeP := fun a b => inferInstanceAs (Decidable (strLe a b = true))

instance : IsTotal String strLeP := ⟨strLe_total⟩

instance : IsTrans String strLeP := ⟨fun _ _ _ => strLe_trans⟩

instance : IsAntisymm String strLeP := ⟨fun _ _ => strLe_antisymm⟩

/-- Order on `(key, hash)` pairs comparing keys only, used to sort an
object's entries by key. -/
def pairLeP (a b : String × String) : Prop := strLe a.1 b.1 = true

instance : DecidableRel pairLeP := fun a b => inferInstanceAs (Decidable (strLe a.1 b.1 = true))

instance : IsTotal (String × String) pairLeP := ⟨fun a b => strLe_total a.1 b.1⟩

instance : IsTrans (String × String) pairLeP := ⟨fun _ _ _ => strLe_trans⟩

/-! ### The canonical fingerprint (`generateHash`)

Modelled from the spec: `src/server.helpers.ts` (exporting `generateHash`)
is not in the source tree; §4.1 of the specification defines the
canonicalization as a tagged-variant dispatch over the closed set of
shape categories {primitive, ordered-sequence, unordered-collection,
keyed-mapping, non-representable}. -/

/-- A runtime value, as the closed set of shape categories from spec §4.1.
Numbers are modelled as integers (the claims only exercise integral
numbers; floating point is outside the embedding). -/
inductive JsValue where
  | num (n : Int)
  | str (s : String)
  | jbool (b : Bool)
  | jnull
  | undef
  | func
  | symbol
  | arr (xs : List JsValue)
  | jset (xs : List JsValue)
  | obj (kvs : List (String × JsValue))

/-- The fixed sentinel token emitted for non-representable values
(functions, symbols, undefined) per spec §4.1. -/
def sentinelToken : String := "~nonrepresentable~"

mutual

/-- Modelled from the spec: canonical fingerprint of a value (spec §4.1).
Primitives are tagged with their type; sequences keep element order;
set-like collections sort the per-element fingerprints; keyed mappings
sort `(key, fingerprint)` pairs by key; non-representable values emit
the fixed sentinel. -/
def generateHash : JsValue → String
  | .num n => "number:" ++ toString n
  | .str s => "string:" ++ s
  | .jbool b => "boolean:" ++ (if b then "true" else "false")
  | .jnull => "null:null"
  | .undef => sentinelToken
  | .func => sentinelToken
  | .symbol => sentinelToken
  | .arr xs => "array:[" ++ String.intercalate "," (hashList xs) ++ "]"
  | .jset xs =>
    "set:[" ++ String.intercalate "," (List.insertionSort strLeP (hashList xs)) ++ "]"
  | .obj kvs =>
    "object:[" ++ String.intercalate ","
      ((List.insertionSort pairLeP (hashPairs kvs)).map (fun p => p.1 ++ "=" ++ p.2)) ++ "]"

/-- Fingerprints of a list of values, in order. -/
def hashList : List JsValue → List String
  | [] => []
  | x :: xs => generateHash x :: hashList xs

/-- `(key, fingerprint)` pairs of an object's entries, in entry order. -/
def hashPairs : List (String × JsValue) → List (String × String)
  | [] => []
  | (k, v) :: rest => (k, generateHash v) :: hashPairs rest

end

mutual

/-- Modelled from the spec: the fingerprint computation as a fallible
evaluator.  Each shape category of spec §4.1 produces a value; a shape
outside the closed set would surface as `Except.error`, so totality of
the canonicalizer is the statement that this evaluator never returns
an error. -/
def generateHashE : JsValue → Except String String
  | .num n => Except.ok ("number:" ++ toString n)
  | .str s => Except.ok ("string:" ++ s)
  | .jbool b => Except.ok ("boolean:" ++ (if b then "true" else "false"))
  | .jnull => Except.ok "null:null"
  | .undef => Except.ok sentinelToken
  | .func => Except.ok sentinelToken
  | .symbol => Except.ok sentinelToken
  | .arr xs =>
    (hashListE xs).map (fun hs => "array:[" ++ String.intercalate "," hs ++ "]")
  | .jset xs =>
    (hashListE xs).map
      (fun hs => "set:[" ++ String.intercalate "," (List.insertionSort strLeP hs) ++ "]")
  | .obj kvs =>
    (hashPairsE kvs).map (fun ps => "object:[" ++ String.intercalate ","
      ((List.insertionSort pairLeP ps).map (fun p => p.1 ++ "=" ++ p.2)) ++ "]")

/-- Fallible fingerprints of a list of values; any element error propagates. -/
def hashListE : List JsValue → Except String (List String)
  | [] => Except.ok []
  | x :: xs => do
    let h ← generateHashE x
    let rest ← hashListE xs
    return h :: rest

/-- Fallible `(key, fingerprint)` pairs of an object's entries. -/
def hashPairsE : List (String × JsValue) → Except String (List (String × String))
  | [] => Except.ok []
  | (k, v) :: rest => do
    let h ← generateHashE v
    let tail ← hashPairsE rest
    return (k, h) :: tail

end

mutual

theorem generateHashE_eq : ∀ v : JsValue, generateHashE v = Except.ok (generateHash v)
  | .num _ => rfl
  | .str _ => rfl
  | .jbool _ => rfl
  | .jnull => rfl
  | .undef => rfl
  | .func => rfl
  | .symbol => rfl
  | .arr xs => by
    show (hashListE xs).map _ = _
    rw [hashListE_eq xs]
    rfl
  | .jset xs => by
    show (hashListE xs).map _ = _
    rw [hashListE_eq xs]
    rfl
  | .obj kvs => by
    show (hashPairsE kvs).map _ = _
    rw [hashPairsE_eq kvs]
    rfl

theorem hashListE_eq : ∀ xs : List JsValue, hashListE xs = Except.ok (hashList xs)
  | [] => rfl
  | x :: xs => by
    show (do
      let h ← generateHashE x
      let rest ← hashListE xs
      return h :: rest) = _
    rw [generateHashE_eq x, hashListE_eq xs]
    rfl

theorem hashPairsE_eq : ∀ kvs : List (String × JsValue),
    hashPairsE kvs = Except.ok (hashPairs kvs)
  | [] => rfl
  | (k, v) :: rest => by
    show (do
      let h ← generateHashE v
      let tail ← hashPairsE rest
      return (k, h) :: tail) = _
    rw [generateHashE_eq v, hashPairsE_eq rest]
    rfl

end

/-- `hashPairs` is the map taking each entry to its `(key, fingerprint)` pair. -/
theorem hashPairs_eq_map (kvs : List (String × JsValue)) :
    hashPairs kvs = kvs.map (fun kv => (kv.1, generateHash kv.2)) := by
  induction kvs with
  | nil => rfl
  | cons kv rest ih => cases kv; simp [hashPairs, ih]

/-- `hashList` is the map of `generateHash` over the elements. -/
theorem hashList_eq_map (xs : List JsValue) : hashList xs = xs.map generateHash := by
  induction xs with
  | nil => rfl
  | cons x rest ih => simp [hashList, ih]

/-- Sorting under the (antisymmetric) string order sends permuted lists to
the same result. -/
theorem insertionSort_strings_perm_eq {l l' : List String} (hp : l.Perm l') :
    List.insertionSort strLeP l = List.insertionSort strLeP l' :=
  List.eq_of_perm_of_sorted
    ((List.perm_insertionSort _ l).trans (hp.trans (List.perm_insertionSort _ l').symm))
    (List.sorted_insertionSort _ l) (List.sorted_insertionSort _ l')

/-- Key-strict order on `(key, hash)` pairs: strictly smaller key, or equal
pairs.  Antisymmetric, which `pairLeP` alone is not. -/
def pairLeStrict (a b : String × String) : Prop :=
  (strLe a.1 b.1 = true ∧ a.1 ≠ b.1) ∨ a = b

/-- A list sorted by key whose keys are distinct is sorted in the
key-strict order. -/
theorem sorted_pairLeStrict {m : List (String × String)}
    (h1 : List.Sorted pairLeP m) (h2 : (m.map Prod.fst).Nodup) :
    List.Sorted pairLeStrict m := by
  have h3 : List.Pairwise (fun a b : String × String => a.1 ≠ b.1) m :=
    List.pairwise_map.mp h2
  exact (h1.and h3).imp (fun h => Or.inl h)

/-- Sorting by key sends permuted pair lists with distinct keys to the same
result. -/
theorem insertionSort_pairs_perm_eq {l l' : List (String × String)}
    (hp : l.Perm l') (hk : (l.map Prod.fst).Nodup) :
    List.insertionSort pairLeP l = List.insertionSort pairLeP l' := by
  haveI : IsAntisymm (String × String) pairLeStrict := ⟨by
    rintro a b (⟨hab, hne⟩ | rfl) hba
    · rcases hba with ⟨hba, _⟩ | rfl
      · exact absurd (strLe_antisymm hab hba) hne
      · rfl
    · rfl⟩
  have hk' : (l'.map Prod.fst).Nodup := ((hp.map Prod.fst).nodup_iff).mp hk
  have hkl : ((List.insertionSort pairLeP l).map Prod.fst).Nodup :=
    (((List.perm_insertionSort pairLeP l).map Prod.fst).nodup_iff).mpr hk
  have hkl' : ((List.insertionSort pairLeP l').map Prod.fst).Nodup :=
    (((List.perm_insertionSort pairLeP l').map Prod.fst).nodup_iff).mpr hk'
  exact List.eq_of_perm_of_sorted
    ((List.perm_insertionSort _ l).trans (hp.trans (List.perm_insertionSort _ l').symm))
    (sorted_pairLeStrict (List.sorted_insertionSort _ l) hkl)
    (sorted_pairLeStrict (List.sorted_insertionSort _ l') hkl')

/-- C1: for keyed mappings holding the same key-value pairs in any
insertion order (keys distinct), `generateHash` returns equal strings, and
likewise member order does not affect the fingerprint of a set-like
collection. -/
theorem generateHash_unordered_order_insensitive
    (kvs kvs' : List (String × JsValue)) (xs ys : List JsValue)
    (hp : kvs.Perm kvs') (hk : (kvs.map Prod.fst).Nodup) (hs : xs.Perm ys) :
    generateHash (JsValue.obj kvs) = generateHash (JsValue.obj kvs') ∧
    generateHash (JsValue.jset xs) = generateHash (JsValue.jset ys) := by
  constructor
  · have hpp : (hashPairs kvs).Perm (hashPairs kvs') := by
      rw [hashPairs_eq_map, hashPairs_eq_map]
      exact hp.map _
    have hkk : ((hashPairs kvs).map Prod.fst).Nodup := by
      rw [hashPairs_eq_map, List.map_map]
      exact hk
    show "object:[" ++ _ ++ "]" = "object:[" ++ _ ++ "]"
    rw [insertionSort_pairs_perm_eq hpp hkk]
  · have hll : (hashList xs).Perm (hashList ys) := by
      rw [hashList_eq_map, hashList_eq_map]
      exact hs.map _
    show "set:[" ++ _ ++ "]" = "set:[" ++ _ ++ "]"
    rw [insertionSort_strings_perm_eq hll]

/-- Witness for C1 at the spec's concrete inputs:
`generateHash (obj [a ↦ 1, b ↦ 2]) = generateHash (obj [b ↦ 2, a ↦ 1])`
and `generateHash (set [1,2,3]) = generateHash (set [3,2,1])`. -/
theorem generateHash_unordered_order_insensitive_witness :
    generateHash (JsValue.obj [("a", JsValue.num 1), ("b", JsValue.num 2)]) =
      generateHash (JsValue.obj [("b", JsValue.num 2), ("a", JsValue.num 1)]) ∧
    generateHash (JsValue.jset [JsValue.num 1, JsValue.num 2, JsValue.num 3]) =
      generateHash (JsValue.jset [JsValue.num 3, JsValue.num 2, JsValue.num 1]) := by
  have hrev : [JsValue.num 3, JsValue.num 2, JsValue.num 1]
      = [JsValue.num 1, JsValue.num 2, JsValue.num 3].reverse := rfl
  exact generateHash_unordered_order_insensitive
    [("a", JsValue.num 1), ("b", JsValue.num 2)]
    [("b", JsValue.num 2), ("a", JsValue.num 1)]
    [JsValue.num 1, JsValue.num 2, JsValue.num 3]
    [JsValue.num 3, JsValue.num 2, JsValue.num 1]
    (List.Perm.swap ("b", JsValue.num 2) ("a", JsValue.num 1) [])
    (by decide)
    (hrev ▸ (List.reverse_perm [JsValue.num 1, JsValue.num 2, JsValue.num 3]).symm)

/-- C2: the fingerprint computation is total — for every value of every
shape category the fallible evaluator returns a string and never an
error. -/
theorem generateHash_never_throws (v : JsValue) :
    generateHashE v = Except.ok (generateHash v) :=
  generateHashE_eq v

/-- C3: element order is part of an ordered sequence's identity — the
fingerprints of `[1,2,3]` and `[3,2,1]` differ. -/
theorem generateHash_array_order_sensitive :
    generateHash (JsValue.arr [JsValue.num 1, JsValue.num 2, JsValue.num 3]) ≠
      generateHash (JsValue.arr [JsValue.num 3, JsValue.num 2, JsValue.num 1]) := by
  decide

/-- Values with no stable external representation: functions, symbols,
undefined. -/
def isNonRepresentable : JsValue → Bool
  | .func => true
  | .symbol => true
  | .undef => true
  | _ => false

/-- C4: all non-representable values (functions, symbols, undefined)
collapse to the one sentinel fingerprint. -/
theorem generateHash_nonrepresentable_collapse (v w : JsValue)
    (hv : isNonRepresentable v = true) (hw : isNonRepresentable w = true) :
    generateHash v = generateHash w := by
  cases v <;> cases w <;> simp_all [isNonRepresentable, generateHash]

/-- Witness for C4: `generateHash (Symbol _) = generateHash undefined`. -/
theorem generateHash_nonrepresentable_collapse_witness :
    isNonRepresentable JsValue.symbol = true ∧
    isNonRepresentable JsValue.undef = true ∧
    generateHash JsValue.symbol = generateHash JsValue.undef :=
  ⟨rfl, rfl, generateHash_nonrepresentable_collapse JsValue.symbol JsValue.undef rfl rfl⟩

/-! ### Memoization cache

Modelled from the spec: `src/server.helpers.ts` (the cache) is not in the
source tree.  Spec §4.2 and §5 describe a fingerprint-keyed async-result
cache with sliding TTL, bounded capacity with LRU eviction, concurrent-call
deduplication through shared `Pending` entries, and a `cacheErrors` toggle.
Under the single-threaded cooperative scheduler of §5 each cache operation
is one atomic step, so the cache is modelled as a state machine whose
steps are `cachedLoadStep` (the synchronous part of `cachedLoad` up to the
suspension point) and `settleStep` (the in-flight load completing). -/

/-- Status of a cache entry (spec §3, CacheEntry).  A `pending` entry holds
the shared handle (here: the numeric id) of the one in-flight load that
all concurrent callers attach to. -/
inductive EntryStatus where
  | pending (loadId : Nat)
  | resolved (value : String)
  | rejected (error : String)
deriving DecidableEq

/-- A cache entry: status, absolute expiry time, last access time. -/
structure CacheEntry where
  status : EntryStatus
  expiresAt : Nat
  lastAccessedAt : Nat
deriving DecidableEq

/-- Cache configuration, immutable after construction (spec §3). -/
structure CacheConfig where
  capacity : Nat
  ttl : Nat
  cacheErrors : Bool
deriving DecidableEq

/-- A cache instance: configuration, fingerprint-indexed entries, a counter
for fresh load ids, and a (ghost) count of producer invocations. -/
structure Cache where
  config : CacheConfig
  entries : List (String × CacheEntry)
  nextLoadId : Nat
  invocations : Nat
deriving DecidableEq

/-- Look up the entry for a fingerprint. -/
def findEntry : List (String × CacheEntry) → String → Option CacheEntry
  | [], _ => none
  | (g, e) :: rest, f => if g = f then some e else findEntry rest f

/-- Drop the entry for a fingerprint. -/
def removeEntry : List (String × CacheEntry) → String → List (String × CacheEntry)
  | [], _ => []
  | (g, e) :: rest, f => if g = f then removeEntry rest f else (g, e) :: removeEntry rest f

/-- Replace (or insert) the entry for a fingerprint, moving it to the
front: the entry list is kept in most-recently-used-first order. -/
def setEntry (entries : List (String × CacheEntry)) (f : String) (e : CacheEntry) :
    List (String × CacheEntry) :=
  (f, e) :: removeEntry entries f

/-- Fingerprint and access time of the least-recently-used entry. -/
def lruOf : List (String × CacheEntry) → Option (String × Nat)
  | [] => none
  | (f, e) :: rest =>
    match lruOf rest with
    | none => some (f, e.lastAccessedAt)
    | some (g, t) =>
      if e.lastAccessedAt ≤ t then some (f, e.lastAccessedAt) else some (g, t)

/-- Evict the least-recently-used entry when inserting one more entry
would push the map over capacity (spec §4.2 step 5). -/
def evictIfFull (cfg : CacheConfig) (entries : List (String × CacheEntry)) :
    List (String × CacheEntry) :=
  if cfg.capacity ≤ entries.length then
    match lruOf entries with
    | some (g, _) => removeEntry entries g
    | none => entries
  else entries

/-- What one `cachedLoad` call observes at its synchronous step. -/
inductive CallResult where
  | startedLoad (loadId : Nat)
  | attachedPending (loadId : Nat)
  | hitResolved (value : String)
  | hitRejected (error : String)
deriving DecidableEq

/-- Miss path of `cachedLoad` (spec §4.2 step 3): atomically create a
`Pending` entry before invoking the producer; an expired entry for the
same fingerprint is discarded, and the LRU entry is evicted first if the
cache is full. -/
def startLoad (c : Cache) (fp : String) (now : Nat) : Cache × CallResult :=
  let pruned := removeEntry c.entries fp
  let room := evictIfFull c.config pruned
  let entry : CacheEntry :=
    { status := EntryStatus.pending c.nextLoadId
      expiresAt := now + c.config.ttl
      lastAccessedAt := now }
  ({ c with
      entries := (fp, entry) :: room
      nextLoadId := c.nextLoadId + 1
      invocations := c.invocations + 1 },
    CallResult.startedLoad c.nextLoadId)

/-- One `cachedLoad` call (spec §4.2 steps 1–3): a live entry is refreshed
(sliding TTL, MRU) and its outcome returned — a `Pending` entry is joined,
deduplicating concurrent callers; a miss (absent or expired) starts a new
load. -/
def cachedLoadStep (c : Cache) (fp : String) (now : Nat) : Cache × CallResult :=
  match findEntry c.entries fp with
  | some e =>
    if now < e.expiresAt then
      let e' := { e with expiresAt := now + c.config.ttl, lastAccessedAt := now }
      match e.status with
      | EntryStatus.pending id =>
        ({ c with entries := setEntry c.entries fp e' }, CallResult.attachedPending id)
      | EntryStatus.resolved v =>
        ({ c with entries := setEntry c.entries fp e' }, CallResult.hitResolved v)
      | EntryStatus.rejected err =>
        ({ c with entries := setEntry c.entries fp e' }, CallResult.hitRejected err)
    else startLoad c fp now
  | none => startLoad c fp now

/-- The in-flight load for a fingerprint settling (spec §4.2 step 4).
On success the entry becomes `Resolved`; on failure it becomes `Rejected`
and is retained for `ttl` if `cacheErrors` is set, and is removed entirely
otherwise. -/
def settleStep (c : Cache) (fp : String) (outcome : Except String String) (now : Nat) :
    Cache :=
  match findEntry c.entries fp with
  | none => c
  | some e =>
    match e.status with
    | EntryStatus.pending _ =>
      match outcome with
      | Except.ok v =>
        let e' : CacheEntry :=
          { status := EntryStatus.resolved v
            expiresAt := now + c.config.ttl
            lastAccessedAt := now }
        { c with entries := setEntry c.entries fp e' }
      | Except.error err =>
        if c.config.cacheErrors then
          let e' : CacheEntry :=
            { status := EntryStatus.rejected err
              expiresAt := now + c.config.ttl
              lastAccessedAt := now }
          { c with entries := setEntry c.entries fp e' }
        else
          { c with entries := removeEntry c.entries fp }
    | _ => c

theorem findEntry_removeEntry (l : List (String × CacheEntry)) (f : String) :
    findEntry (removeEntry l f) f = none := by
  induction l with
  | nil => rfl
  | cons p rest ih =>
    cases p with
    | mk g e =>
      by_cases h : g = f
      · simp [removeEntry, h, ih]
      · simp [removeEntry, findEntry, h, ih]

/-- C5: a second `cachedLoad` on the same fingerprint arriving before the
first call's load settles attaches to the same in-flight load — the
producer is invoked exactly once and both callers hold the same load
handle. -/
theorem cachedLoad_dedups_concurrent_calls
    (c₀ : Cache) (fp : String) (t₁ t₂ : Nat)
    (hmiss : findEntry c₀.entries fp = none)
    (hbefore : t₂ < t₁ + c₀.config.ttl) :
    (cachedLoadStep c₀ fp t₁).2 = CallResult.startedLoad c₀.nextLoadId ∧
    (cachedLoadStep (cachedLoadStep c₀ fp t₁).1 fp t₂).2 =
      CallResult.attachedPending c₀.nextLoadId ∧
    ((cachedLoadStep (cachedLoadStep c₀ fp t₁).1 fp t₂).1).invocations =
      c₀.invocations + 1 := by
  simp [cachedLoadStep, hmiss, startLoad, findEntry, hbefore]

/-- A concrete cache used by the cache witnesses: capacity 10, ttl 100,
shown at both values of `cacheErrors`. -/
def demoCache (cacheErrors : Bool) : Cache :=
  { config := { capacity := 10, ttl := 100, cacheErrors := cacheErrors }
    entries := []
    nextLoadId := 0
    invocations := 0 }

/-- Witness for C5: two calls on fingerprint `"k"` at times 0 and 50
(ttl 100) share load id 0 and invoke the producer once. -/
theorem cachedLoad_dedups_concurrent_calls_witness :
    findEntry (demoCache true).entries "k" = none ∧
    (50 : Nat) < 0 + (demoCache true).config.ttl ∧
    (cachedLoadStep (demoCache true) "k" 0).2 = CallResult.startedLoad 0 ∧
    (cachedLoadStep (cachedLoadStep (demoCache true) "k" 0).1 "k" 50).2 =
      CallResult.attachedPending 0 ∧
    ((cachedLoadStep (cachedLoadStep (demoCache true) "k" 0).1 "k" 50).1).invocations = 1 := by
  have h := cachedLoad_dedups_concurrent_calls (demoCache true) "k" 0 50 (by decide) (by decide)
  exact ⟨by decide, by decide, h.1, h.2.1, h.2.2⟩

/-- C6: after a failed load, with `cacheErrors = false` no entry remains
and the next call re-invokes the producer; with `cacheErrors = true` a
second call within `ttl` of the failure gets the cached rejection without
re-invoking. -/
theorem cachedLoad_error_caching_toggle
    (c₀ : Cache) (fp err : String) (t₁ t₂ t₃ : Nat)
    (hmiss : findEntry c₀.entries fp = none) :
    (c₀.config.cacheErrors = false →
      findEntry (settleStep (cachedLoadStep c₀ fp t₁).1 fp (Except.error err) t₂).entries
        fp = none ∧
      (cachedLoadStep (settleStep (cachedLoadStep c₀ fp t₁).1 fp (Except.error err) t₂)
          fp t₃).2 =
        CallResult.startedLoad
          (settleStep (cachedLoadStep c₀ fp t₁).1 fp (Except.error err) t₂).nextLoadId ∧
      ((cachedLoadStep (settleStep (cachedLoadStep c₀ fp t₁).1 fp (Except.error err) t₂)
          fp t₃).1).invocations = c₀.invocations + 2) ∧
    (c₀.config.cacheErrors = true → t₃ < t₂ + c₀.config.ttl →
      (cachedLoadStep (settleStep (cachedLoadStep c₀ fp t₁).1 fp (Except.error err) t₂)
          fp t₃).2 = CallResult.hitRejected err ∧
      ((cachedLoadStep (settleStep (cachedLoadStep c₀ fp t₁).1 fp (Except.error err) t₂)
          fp t₃).1).invocations = c₀.invocations + 1) := by
  constructor
  · intro hfalse
    simp [cachedLoadStep, hmiss, startLoad, settleStep, findEntry, setEntry, removeEntry,
      hfalse, findEntry_removeEntry]
  · intro htrue hlive
    simp [cachedLoadStep, hmiss, startLoad, settleStep, findEntry, setEntry, removeEntry,
      htrue, hlive]

/-- Witness for C6: both toggle values at fingerprint `"k"`, failing at
time 10, recalled at time 20 (within ttl 100). -/
theorem cachedLoad_error_caching_toggle_witness :
    findEntry (demoCache false).entries "k" = none ∧
    findEntry (demoCache true).entries "k" = none ∧
    (20 : Nat) < 10 + (demoCache true).config.ttl ∧
    findEntry (settleStep (cachedLoadStep (demoCache false) "k" 0).1 "k"
        (Except.error "boom") 10).entries "k" = none ∧
    (cachedLoadStep (settleStep (cachedLoadStep (demoCache false) "k" 0).1 "k"
        (Except.error "boom") 10) "k" 20).2 = CallResult.startedLoad 1 ∧
    ((cachedLoadStep (settleStep (cachedLoadStep (demoCache false) "k" 0).1 "k"
        (Except.error "boom") 10) "k" 20).1).invocations = 2 ∧
    (cachedLoadStep (settleStep (cachedLoadStep (demoCache true) "k" 0).1 "k"
        (Except.error "boom") 10) "k" 20).2 = CallResult.hitRejected "boom" ∧
    ((cachedLoadStep (settleStep (cachedLoadStep (demoCache true) "k" 0).1 "k"
        (Except.error "boom") 10) "k" 20).1).invocations = 1 := by
  have hf := (cachedLoad_error_caching_toggle (demoCache false) "k" "boom" 0 10 20
    (by decide)).1 (by decide)
  have ht := (cachedLoad_error_caching_toggle (demoCache true) "k" "boom" 0 10 20
    (by decide)).2 (by decide) (by decide)
  exact ⟨by decide, by decide, by decide, hf.1, hf.2.1, hf.2.2, ht.1, ht.2⟩

/-! ### Cache clear guard

Modelled from the spec: §4.3 — a rate limiter around cache resets.
State is `lastClearAt` (absent initially) plus the owned cache
instances, modelled as generation counters (clearing replaces an
instance with a fresh one, §3/§9 arena style). -/

/-- Which cache instances a clear targets. -/
inductive ClearScope where
  | url
  | file
  | all
deriving DecidableEq

/-- Process-wide clear-guard state: time of the last successful clear and
the generation of each owned cache instance. -/
structure ClearGuardState where
  lastClearAt : Option Nat
  urlCacheGen : Nat
  fileCacheGen : Nat
deriving DecidableEq

/-- Outcome of `tryClear`: success, or a cooldown error carrying the
remaining wait in milliseconds and rounded up to whole seconds for
display. -/
inductive ClearOutcome where
  | cleared
  | cooldownActive (remainingMs : Nat) (displaySeconds : Nat)
deriving DecidableEq

/-- Perform the clear: replace the targeted cache instance(s) by bumping
their generation, and record the clear time. -/
def performClear (st : ClearGuardState) (scope : ClearScope) (now : Nat) :
    ClearGuardState :=
  { lastClearAt := some now
    urlCacheGen :=
      st.urlCacheGen + (if scope = ClearScope.url ∨ scope = ClearScope.all then 1 else 0)
    fileCacheGen :=
      st.fileCacheGen + (if scope = ClearScope.file ∨ scope = ClearScope.all then 1 else 0) }

/-- Modelled from the spec: `tryClear` (spec §4.3).  If `lastClearAt` is
set and `now - lastClearAt < cooldown`, fail with the remaining wait
(also rounded up to whole seconds); otherwise clear and set
`lastClearAt = now`. -/
def tryClear (st : ClearGuardState) (cooldownMs now : Nat) (scope : ClearScope) :
    ClearGuardState × ClearOutcome :=
  match st.lastClearAt with
  | some t =>
    if now - t < cooldownMs then
      let rem := cooldownMs - (now - t)
      (st, ClearOutcome.cooldownActive rem ((rem + 999) / 1000))
    else
      (performClear st scope now, ClearOutcome.cleared)
  | none => (performClear st scope now, ClearOutcome.cleared)

/-- C7: `tryClear` succeeds exactly when no clear happened yet or the
cooldown has elapsed, recording `lastClearAt = now`; otherwise it leaves
the state untouched and reports the remaining wait, rounded up to whole
seconds. -/
theorem tryClear_rate_limit (st : ClearGuardState) (cooldownMs now : Nat)
    (scope : ClearScope) :
    (st.lastClearAt = none →
      (tryClear st cooldownMs now scope).2 = ClearOutcome.cleared ∧
      (tryClear st cooldownMs now scope).1.lastClearAt = some now) ∧
    (∀ t, st.lastClearAt = some t → cooldownMs ≤ now - t →
      (tryClear st cooldownMs now scope).2 = ClearOutcome.cleared ∧
      (tryClear st cooldownMs now scope).1.lastClearAt = some now) ∧
    (∀ t, st.lastClearAt = some t → now - t < cooldownMs →
      (tryClear st cooldownMs now scope).2 =
        ClearOutcome.cooldownActive (cooldownMs - (now - t))
          ((cooldownMs - (now - t) + 999) / 1000) ∧
      (tryClear st cooldownMs now scope).1 = st) := by
  refine ⟨fun hnone => ?_, fun t ht hpast => ?_, fun t ht hin => ?_⟩
  · simp [tryClear, hnone, performClear]
  · have hnot : ¬ now - t < cooldownMs := by omega
    simp [tryClear, ht, hnot, performClear]
  · simp [tryClear, ht, hin]

/-- Witness for C7, the spec §8 scenario: cooldown 5000 ms, successful
clear at t=0, a second call at t=1000 fails with 4000 ms ≈ 4 s remaining,
and a third call at t=5000 succeeds. -/
theorem tryClear_rate_limit_witness :
    (tryClear ⟨none, 0, 0⟩ 5000 0 ClearScope.all).2 = ClearOutcome.cleared ∧
    (tryClear ⟨none, 0, 0⟩ 5000 0 ClearScope.all).1.lastClearAt = some 0 ∧
    (tryClear (tryClear ⟨none, 0, 0⟩ 5000 0 ClearScope.all).1 5000 1000 ClearScope.all).2 =
      ClearOutcome.cooldownActive 4000 4 ∧
    (tryClear (tryClear ⟨none, 0, 0⟩ 5000 0 ClearScope.all).1 5000 5000 ClearScope.all).2 =
      ClearOutcome.cleared := by
  have h0 := (tryClear_rate_limit ⟨none, 0, 0⟩ 5000 0 ClearScope.all).1 rfl
  have h1 := ((tryClear_rate_limit (tryClear ⟨none, 0, 0⟩ 5000 0 ClearScope.all).1
      5000 1000 ClearScope.all).2.2) 0 (by decide) (by decide)
  have h2 := ((tryClear_rate_limit (tryClear ⟨none, 0, 0⟩ 5000 0 ClearScope.all).1
      5000 5000 ClearScope.all).2.1) 0 (by decide) (by decide)
  exact ⟨h0.1, h0.2, h1.1, h2.1⟩

/-! ### Document aggregator

Modelled from the spec: §4.4 — `loadAll` normalizes and deduplicates its
identifier list, classifies each identifier as URL or local path, loads
all items independently (settle-all: per-item failure is captured and
rendered, never propagated), and joins the rendered parts with a fixed
separator.  The two per-scope caches' load paths appear as the two
loader oracles. -/

/-- Is `pre` a prefix of `l`? -/
def isPrefixChars : List Char → List Char → Bool
  | [], _ => true
  | _ :: _, [] => false
  | a :: as, b :: bs => if a = b then isPrefixChars as bs else false

/-- ASCII whitespace, as trimmed from identifier ends. -/
def isWsChar (c : Char) : Bool :=
  c.toNat = 32 || c.toNat = 9 || c.toNat = 10 || c.toNat = 13

/-- Trim whitespace from both ends of an identifier. -/
def trimStr (s : String) : String :=
  String.mk (((s.data.dropWhile isWsChar).reverse.dropWhile isWsChar).reverse)

/-- Keep the first occurrence of each string, preserving order. -/
def dedupeAux : List String → List String → List String
  | [], _ => []
  | x :: xs, seen =>
    if x ∈ seen then dedupeAux xs seen else x :: dedupeAux xs (x :: seen)

/-- Normalize an identifier list (spec §4.4 step 1): trim, drop empties,
deduplicate keeping first occurrences. -/
def normalizeIds (ids : List String) : List String :=
  dedupeAux ((ids.map trimStr).filter (fun s => decide (¬ s = ""))) []

/-- Classify an identifier (spec §4.4 step 2): URL iff it starts with a
scheme pattern. -/
def isUrlIdentifier (s : String) : Bool :=
  isPrefixChars "http://".data s.data || isPrefixChars "https://".data s.data

/-- Route one load through the URL-scoped or file-scoped cache path. -/
def routeLoad (urlLoad fileLoad : String → Except String String) (id : String) :
    Except String String :=
  if isUrlIdentifier id then urlLoad id else fileLoad id

/-- Render one settled item (spec §4.4 step 5): a header plus the
retrieved text on success, a failure marker naming the identifier and the
error on failure. -/
def renderPart (id : String) (outcome : Except String String) : String :=
  match outcome with
  | Except.ok content => "# " ++ id ++ "\n\n" ++ content
  | Except.error err => "Failed to load " ++ id ++ ": " ++ err

/-- The fixed separator between rendered parts (spec §4.4 step 6). -/
def partSep : String := "\n\n---\n\n"

/-- Join rendered parts with the fixed separator. -/
def joinParts (sep : String) : List String → String
  | [] => ""
  | [p] => p
  | p :: q :: rest => p ++ sep ++ joinParts sep (q :: rest)

/-- The rendered parts of one aggregation call, in deduplicated input
order. -/
def loadAllParts (ids : List String) (urlLoad fileLoad : String → Except String String) :
    List String :=
  (normalizeIds ids).map (fun j => renderPart j (routeLoad urlLoad fileLoad j))

/-- `loadAll` (spec §4.4): one string joining every item's rendered
outcome. -/
def loadAll (ids : List String) (urlLoad fileLoad : String → Except String String) :
    String :=
  joinParts partSep (loadAllParts ids urlLoad fileLoad)

/-- Settle one item: its load's failure is captured locally and rendered,
never re-raised. -/
def settleOne (urlLoad fileLoad : String → Except String String) (id : String) :
    Except String String :=
  match routeLoad urlLoad fileLoad id with
  | Except.ok c => Except.ok (renderPart id (Except.ok c))
  | Except.error err => Except.ok (renderPart id (Except.error err))

/-- Settle every item; an uncaptured failure of any item would propagate
as `Except.error`. -/
def settleAll (urlLoad fileLoad : String → Except String String) :
    List String → Except String (List String)
  | [] => Except.ok []
  | id :: rest => do
    let part ← settleOne urlLoad fileLoad id
    let tail ← settleAll urlLoad fileLoad rest
    return part :: tail

/-- The aggregation call as a fallible computation: it fails only if some
item's failure escapes its local capture. -/
def loadAllE (ids : List String) (urlLoad fileLoad : String → Except String String) :
    Except String String :=
  match settleAll urlLoad fileLoad (normalizeIds ids) with
  | Except.ok parts => Except.ok (joinParts partSep parts)
  | Except.error e => Except.error e

theorem settleOne_ok (urlLoad fileLoad : String → Except String String) (id : String) :
    settleOne urlLoad fileLoad id =
      Except.ok (renderPart id (routeLoad urlLoad fileLoad id)) := by
  cases h : routeLoad urlLoad fileLoad id <;> simp [settleOne, h]

theorem settleAll_ok (urlLoad fileLoad : String → Except String String)
    (l : List String) :
    settleAll urlLoad fileLoad l =
      Except.ok (l.map (fun j => renderPart j (routeLoad urlLoad fileLoad j))) := by
  induction l with
  | nil => rfl
  | cons id rest ih =>
    simp only [settleAll, settleOne_ok, ih]
    rfl

/-- Every part is an infix of the joined output. -/
theorem mem_joinParts_infix (sep : String) {p : String} {parts : List String}
    (hp : p ∈ parts) :
    p.data <:+: (joinParts sep parts).data := by
  induction parts with
  | nil => cases hp
  | cons q rest ih =>
    cases rest with
    | nil =>
      rcases List.mem_cons.mp hp with rfl | h
      · exact List.infix_rfl
      · cases h
    | cons r rest' =>
      rcases List.mem_cons.mp hp with rfl | h
      · show p.data <:+: (p ++ sep ++ joinParts sep (r :: rest')).data
        rw [String.data_append, String.data_append]
        exact ((List.prefix_append p.data sep.data).isInfix).trans
          (List.prefix_append _ _).isInfix
      · show p.data <:+: (q ++ sep ++ joinParts sep (r :: rest')).data
        rw [String.data_append]
        exact (ih h).trans (List.suffix_append _ _).isInfix

/-- C8: aggregator settle-all isolation — the call never fails as a whole,
a failing item is rendered as a failure marker naming the identifier and
the error inside the returned string, and every item's rendered outcome
(depending only on its own load) appears in the returned string. -/
theorem loadAll_settle_all_isolation
    (ids : List String) (urlLoad fileLoad : String → Except String String)
    (i e : String) (hi : i ∈ normalizeIds ids)
    (he : routeLoad urlLoad fileLoad i = Except.error e) :
    loadAllE ids urlLoad fileLoad = Except.ok (loadAll ids urlLoad fileLoad) ∧
    (renderPart i (Except.error e)).data <:+: (loadAll ids urlLoad fileLoad).data ∧
    i.data <:+: (renderPart i (Except.error e)).data ∧
    e.data <:+: (renderPart i (Except.error e)).data ∧
    (∀ j, j ∈ normalizeIds ids →
      (renderPart j (routeLoad urlLoad fileLoad j)).data <:+:
        (loadAll ids urlLoad fileLoad).data) := by
  have hparts : ∀ j, j ∈ normalizeIds ids →
      (renderPart j (routeLoad urlLoad fileLoad j)) ∈ loadAllParts ids urlLoad fileLoad :=
    fun j hj => List.mem_map_of_mem _ hj
  refine ⟨?_, ?_, ?_, ?_, fun j hj => mem_joinParts_infix partSep (hparts j hj)⟩
  · simp [loadAllE, settleAll_ok, loadAll, loadAllParts]
  · have := mem_joinParts_infix partSep (hparts i hi)
    rwa [he] at this
  · show i.data <:+: ("Failed to load " ++ i ++ ": " ++ e).data
    exact ⟨"Failed to load ".data, ": ".data ++ e.data,
      by simp [String.data_append, List.append_assoc]⟩
  · show e.data <:+: ("Failed to load " ++ i ++ ": " ++ e).data
    exact ⟨("Failed to load " ++ i ++ ": ").data, [],
      by simp [String.data_append, List.append_assoc]⟩

/-- Witness for C8 at the spec §8 inputs: a failing URL item and a
succeeding local item. -/
theorem loadAll_settle_all_isolation_witness :
    "https://bad.example/x" ∈ normalizeIds ["https://bad.example/x", "/local/good.md"] ∧
    routeLoad (fun _ => Except.error "network down") (fun _ => Except.ok "GOOD")
      "https://bad.example/x" = Except.error "network down" ∧
    loadAllE ["https://bad.example/x", "/local/good.md"]
        (fun _ => Except.error "network down") (fun _ => Except.ok "GOOD") =
      Except.ok (loadAll ["https://bad.example/x", "/local/good.md"]
        (fun _ => Except.error "network down") (fun _ => Except.ok "GOOD")) ∧
    (renderPart "https://bad.example/x" (Except.error "network down")).data <:+:
      (loadAll ["https://bad.example/x", "/local/good.md"]
        (fun _ => Except.error "network down") (fun _ => Except.ok "GOOD")).data ∧
    (renderPart "/local/good.md"
        (routeLoad (fun _ => Except.error "network down") (fun _ => Except.ok "GOOD")
          "/local/good.md")).data <:+:
      (loadAll ["https://bad.example/x", "/local/good.md"]
        (fun _ => Except.error "network down") (fun _ => Except.ok "GOOD")).data := by
  have h := loadAll_settle_all_isolation
    ["https://bad.example/x", "/local/good.md"]
    (fun _ => Except.error "network down") (fun _ => Except.ok "GOOD")
    "https://bad.example/x" "network down" (by decide) rfl
  exact ⟨by decide, rfl, h.1, h.2.1, h.2.2.2.2 "/local/good.md" (by decide)⟩

/-! ### Component-schemas fuzzy search

Embedded from `src/tool.componentSchemas.ts` (`searchComponents`,
lines 22–57): case-insensitive scoring — exact match 1000, prefix match
`900 - query.length`, substring match `800 - index - query.length` —
keeping only positive scores, sorted by descending score, truncated to
`limit`.  `toLowerCase` is modelled on the ASCII range. -/

/-- ASCII lowercase of one character (models `String.prototype.toLowerCase`
on the ASCII component names). -/
def lcChar (c : Char) : Char :=
  if 65 ≤ c.toNat ∧ c.toNat ≤ 90 then Char.ofNat (c.toNat + 32) else c

/-- First index of `needle` inside a character list (models
`String.prototype.indexOf`). -/
def idxOfChars (needle : List Char) : List Char → Option Nat
  | [] => if needle.isEmpty then some 0 else none
  | c :: rest =>
    if isPrefixChars needle (c :: rest) then some 0
    else (idxOfChars needle rest).map (· + 1)

/-- One search hit: component name, score, and match type
(`"exact"`, `"prefix"` or `"contains"`). -/
structure SearchResult where
  name : String
  score : Int
  matchType : String
deriving DecidableEq

/-- Score one component against the lowercased query
(`searchComponents` loop body, tool.componentSchemas.ts lines 26–51). -/
def scoreComponent (queryLower : List Char) (component : String) : Option SearchResult :=
  let componentLower := component.data.map lcChar
  if componentLower = queryLower then
    some { name := component, score := 1000, matchType := "exact" }
  else if isPrefixChars queryLower componentLower then
    some { name := component, score := 900 - (queryLower.length : Int), matchType := "prefix" }
  else
    match idxOfChars queryLower componentLower with
    | some idx =>
      some { name := component
             score := 800 - (idx : Int) - (queryLower.length : Int)
             matchType := "contains" }
    | none => none

/-- Descending-score order used by `results.sort((a, b) => b.score - a.score)`. -/
def scoreGeP (a b : SearchResult) : Prop := b.score ≤ a.score

instance : DecidableRel scoreGeP := fun a b => inferInstanceAs (Decidable (b.score ≤ a.score))

instance : IsTotal SearchResult scoreGeP := ⟨fun a b => Int.le_total b.score a.score⟩

instance : IsTrans SearchResult scoreGeP :=
  ⟨fun _ _ _ hab hbc => le_trans hbc hab⟩

/-- `searchComponents` (tool.componentSchemas.ts lines 22–57): score every
component, keep positive scores, sort by descending score, return the
first `limit` results. -/
def searchComponents (query : String) (components : List String) (limit : Nat) :
    List SearchResult :=
  let queryLower := query.data.map lcChar
  let results := components.filterMap (scoreComponent queryLower)
  let results := results.filter (fun r => decide (0 < r.score))
  (List.insertionSort scoreGeP results).take limit

theorem isPrefixChars_isPrefix : ∀ {a b : List Char}, isPrefixChars a b = true → a <+: b
  | [], _, _ => List.nil_prefix
  | _ :: _, [], h => by simp [isPrefixChars] at h
  | a :: as, b :: bs, h => by
    by_cases hab : a = b
    · subst hab
      rw [isPrefixChars, if_pos rfl] at h
      obtain ⟨t, ht⟩ := isPrefixChars_isPrefix h
      exact ⟨t, by rw [List.cons_append, ht]⟩
    · rw [isPrefixChars, if_neg hab] at h
      exact absurd h Bool.false_ne_true

theorem idxOfChars_isInfix : ∀ {needle hay : List Char} {i : Nat},
    idxOfChars needle hay = some i → needle <:+: hay
  | needle, [], i, h => by
    by_cases he : needle.isEmpty
    · rw [List.isEmpty_iff.mp he]
    · simp [idxOfChars, he] at h
  | needle, c :: rest, i, h => by
    by_cases hpre : isPrefixChars needle (c :: rest) = true
    · exact (isPrefixChars_isPrefix hpre).isInfix
    · rw [idxOfChars, if_neg hpre] at h
      obtain ⟨j, hj, _⟩ := Option.map_eq_some'.mp h
      exact (idxOfChars_isInfix hj).trans (List.suffix_append [c] rest).isInfix

/-- Case analysis on a successful score (the three match branches). -/
theorem scoreComponent_cases {qL : List Char} {c : String} {r : SearchResult}
    (h : scoreComponent qL c = some r) :
    r.name = c ∧
    ((r.matchType = "exact" ∧ r.score = 1000 ∧ c.data.map lcChar = qL) ∨
     (r.matchType = "prefix" ∧ r.score = 900 - (qL.length : Int) ∧
       isPrefixChars qL (c.data.map lcChar) = true) ∨
     (∃ idx : Nat, r.matchType = "contains" ∧
       r.score = 800 - (idx : Int) - (qL.length : Int) ∧
       idxOfChars qL (c.data.map lcChar) = some idx)) := by
  simp only [scoreComponent] at h
  by_cases h1 : List.map lcChar c.data = qL
  · rw [if_pos h1] at h
    cases h
    exact ⟨rfl, Or.inl ⟨rfl, rfl, h1⟩⟩
  · rw [if_neg h1] at h
    by_cases h2 : isPrefixChars qL (List.map lcChar c.data) = true
    · rw [if_pos h2] at h
      cases h
      exact ⟨rfl, Or.inr (Or.inl ⟨rfl, rfl, h2⟩)⟩
    · rw [if_neg h2] at h
      cases hidx : idxOfChars qL (List.map lcChar c.data) with
      | none => rw [hidx] at h; cases h
      | some idx =>
        rw [hidx] at h
        cases h
        exact ⟨rfl, Or.inr (Or.inr ⟨idx, rfl, rfl, rfl⟩)⟩

/-- Every returned result arises from scoring some listed component, with
a positive score. -/
theorem mem_searchComponents {query : String} {components : List String} {limit : Nat}
    {r : SearchResult} (hr : r ∈ searchComponents query components limit) :
    (∃ c, c ∈ components ∧ scoreComponent (query.data.map lcChar) c = some r) ∧
      0 < r.score := by
  have h1 : r ∈ List.insertionSort scoreGeP
      (((components.filterMap (scoreComponent (query.data.map lcChar)))).filter
        (fun r => decide (0 < r.score))) :=
    List.take_subset _ _ hr
  have h2 := (List.perm_insertionSort scoreGeP _).subset h1
  have h3 := List.mem_filter.mp h2
  obtain ⟨c, hc, hsc⟩ := List.mem_filterMap.mp h3.1
  exact ⟨⟨c, hc, hsc⟩, by simpa using h3.2⟩

/-- C9: `searchComponents` returns at most `limit` results, sorted by
non-increasing score, each of whose names contains the query
case-insensitively; exact matches outscore prefix matches, which outscore
substring matches, for the same query. -/
theorem searchComponents_spec (query : String) (components : List String) (limit : Nat)
    (_hlimit : 0 < limit) :
    (searchComponents query components limit).length ≤ limit ∧
    List.Sorted scoreGeP (searchComponents query components limit) ∧
    (∀ r ∈ searchComponents query components limit,
      (query.data.map lcChar) <:+: (r.name.data.map lcChar)) ∧
    (∀ r₁ ∈ searchComponents query components limit,
      ∀ r₂ ∈ searchComponents query components limit,
        r₁.matchType = "exact" → r₂.matchType = "prefix" → r₂.score < r₁.score) ∧
    (∀ r₁ ∈ searchComponents query components limit,
      ∀ r₂ ∈ searchComponents query components limit,
        r₁.matchType = "prefix" → r₂.matchType = "contains" → r₂.score < r₁.score) := by
  have hchar : ∀ r ∈ searchComponents query components limit,
      r.name ∈ components ∧
      ((r.matchType = "exact" ∧ r.score = 1000 ∧
          r.name.data.map lcChar = query.data.map lcChar) ∨
       (r.matchType = "prefix" ∧ r.score = 900 - ((query.data.map lcChar).length : Int) ∧
         isPrefixChars (query.data.map lcChar) (r.name.data.map lcChar) = true) ∨
       (∃ idx : Nat, r.matchType = "contains" ∧
         r.score = 800 - (idx : Int) - ((query.data.map lcChar).length : Int) ∧
         idxOfChars (query.data.map lcChar) (r.name.data.map lcChar) = some idx)) := by
    intro r hr
    obtain ⟨⟨c, hc, hsc⟩, _⟩ := mem_searchComponents hr
    obtain ⟨hname, hcases⟩ := scoreComponent_cases hsc
    subst hname
    exact ⟨hc, hcases⟩
  refine ⟨?_, ?_, ?_, ?_, ?_⟩
  · exact List.length_take_le _ _
  · exact (List.sorted_insertionSort scoreGeP _).sublist (List.take_sublist _ _)
  · intro r hr
    rcases (hchar r hr).2 with ⟨_, _, heq⟩ | ⟨_, _, hpre⟩ | ⟨idx, _, _, hidx⟩
    · rw [heq]
    · exact (isPrefixChars_isPrefix hpre).isInfix
    · exact idxOfChars_isInfix hidx
  · intro r₁ hr₁ r₂ hr₂ hm₁ hm₂
    rcases (hchar r₁ hr₁).2 with ⟨_, hs₁, _⟩ | ⟨hm, _, _⟩ | ⟨idx, hm, _, _⟩
    · rcases (hchar r₂ hr₂).2 with ⟨hm, _, _⟩ | ⟨_, hs₂, _⟩ | ⟨idx, hm, _, _⟩
      · rw [hm₂] at hm; exact absurd hm (by decide)
      · rw [hs₁, hs₂]; omega
      · rw [hm₂] at hm; exact absurd hm (by decide)
    · rw [hm₁] at hm; exact absurd hm (by decide)
    · rw [hm₁] at hm; exact absurd hm (by decide)
  · intro r₁ hr₁ r₂ hr₂ hm₁ hm₂
    rcases (hchar r₁ hr₁).2 with ⟨hm, _, _⟩ | ⟨_, hs₁, _⟩ | ⟨idx, hm, _, _⟩
    · rw [hm₁] at hm; exact absurd hm (by decide)
    · rcases (hchar r₂ hr₂).2 with ⟨hm, _, _⟩ | ⟨hm, _, _⟩ | ⟨idx, _, hs₂, _⟩
      · rw [hm₂] at hm; exact absurd hm (by decide)
      · rw [hm₂] at hm; exact absurd hm (by decide)
      · rw [hs₁, hs₂]; omega
    · rw [hm₁] at hm; exact absurd hm (by decide)

/-- The component list the tool's tests mock. -/
def demoComponents : List String := ["Button", "Alert", "Card", "Modal"]

/-- Witness for C9 on the mocked component list, query `"but"`, limit 3. -/
theorem searchComponents_spec_witness :
    (0 : Nat) < 3 ∧
    (searchComponents "but" demoComponents 3).length ≤ 3 ∧
    List.Sorted scoreGeP (searchComponents "but" demoComponents 3) ∧
    (∀ r ∈ searchComponents "but" demoComponents 3,
      ("but".data.map lcChar) <:+: (r.name.data.map lcChar)) ∧
    (∀ r₁ ∈ searchComponents "but" demoComponents 3,
      ∀ r₂ ∈ searchComponents "but" demoComponents 3,
        r₁.matchType = "exact" → r₂.matchType = "prefix" → r₂.score < r₁.score) := by
  have h := searchComponents_spec "but" demoComponents 3 (by decide)
  exact ⟨by decide, h.1, h.2.1, h.2.2.1, h.2.2.2.1⟩

/-! ### Component-schemas tool callback

Embedded from `src/tool.componentSchemas.ts` (lines 69–181): the
callback's try-block is a fallible computation (`Except`), its catch
clause converts any failure into a text content payload whose JSON body
carries the error message and a usage object.  The external
`getComponentSchema` producer appears as an oracle; `JSON.stringify` is
modelled structurally. -/

/-- A JSON value, the shape of the tool's text payloads. -/
inductive Json where
  | str (s : String)
  | num (n : Int)
  | jbool (b : Bool)
  | arr (xs : List Json)
  | obj (fields : List (String × Json))

/-- One item of a tool response's `content` array. -/
structure ToolContentItem where
  type : String
  text : Json

/-- A tool response: a `content` array. -/
structure ToolResponse where
  content : List ToolContentItem

/-- The callback's parsed arguments (`ComponentSchemasInput`). -/
structure ToolArgs where
  action : String
  componentName : Option String
  query : Option String
  limit : Option Nat

/-- What `getComponentSchema` resolves to. -/
structure ComponentSchemaInfo where
  componentName : String
  propsCount : Nat
  requiredProps : List String
  schema : Json

/-- JS falsiness of an optional string: absent or empty (the code's
`!query` / `!componentName` checks). -/
def isFalsyString : Option String → Bool
  | none => true
  | some s => decide (s = "")

/-- A response with a single text content item. -/
def textResponse (payload : Json) : ToolResponse :=
  { content := [{ type := "text", text := payload }] }

/-- One search result as rendered in the search response. -/
def searchResultJson (r : SearchResult) : Json :=
  Json.obj [("name", Json.str r.name), ("score", Json.num r.score),
    ("matchType", Json.str r.matchType)]

/-- One suggestion of the not-found response; `confidence` models
`Math.round((score / 1000) * 100)` on the nonnegative scores involved. -/
def suggestionJson (s : SearchResult) : Json :=
  Json.obj [("name", Json.str s.name), ("matchType", Json.str s.matchType),
    ("confidence", Json.num ((s.score * 100 + 500) / 1000))]

/-- The `usage` object of the catch clause's error payload. -/
def usageJson : Json :=
  Json.obj [
    ("listComponents", Json.obj [("action", Json.str "list")]),
    ("searchComponents", Json.obj [("action", Json.str "search"),
      ("query", Json.str "button")]),
    ("getComponentSchema", Json.obj [("action", Json.str "get"),
      ("componentName", Json.str "Button")])]

/-- The payload returned when `action = "get"` names an unknown
component. -/
def notFoundJson (name : String) (suggestions : List SearchResult) : Json :=
  Json.obj [
    ("error", Json.str ("Component \"" ++ name ++ "\" not found")),
    ("suggestions", Json.arr (suggestions.map suggestionJson)),
    ("suggestion", Json.str (match suggestions with
      | [] => "Use the \"search\" action to find similar components."
      | s :: _ =>
        "Did you mean \"" ++ s.name ++ "\"? Use the \"search\" action for more options."))]

/-- The try-block of the callback (tool.componentSchemas.ts lines 70–161):
each `throw` is an `Except.error`, every `return` an `Except.ok`. -/
def runComponentSchemasAction (getSchema : String → Except String ComponentSchemaInfo)
    (componentNames : List String) (args : ToolArgs) : Except String ToolResponse :=
  let limit := args.limit.getD 10
  if args.action = "list" then
    Except.ok (textResponse (Json.obj [
      ("action", Json.str "list"),
      ("totalComponents", Json.num componentNames.length),
      ("components", Json.arr ((List.insertionSort strLeP componentNames).map Json.str)),
      ("description",
        Json.str "Available PatternFly React components with JSON Schema validation")]))
  else if args.action = "search" then
    if isFalsyString args.query = true then
      Except.error "query is required when action is \"search\""
    else
      let q := args.query.getD ""
      Except.ok (textResponse (Json.obj [
        ("action", Json.str "search"),
        ("query", Json.str q),
        ("totalResults", Json.num (searchComponents q componentNames limit).length),
        ("results", Json.arr ((searchComponents q componentNames limit).map
          searchResultJson)),
        ("description", Json.str ("Search results for \"" ++ q ++ "\""))]))
  else if args.action = "get" then
    if isFalsyString args.componentName = true then
      Except.error "componentName is required when action is \"get\""
    else
      let name := args.componentName.getD ""
      if name ∈ componentNames then
        match getSchema name with
        | Except.ok info =>
          Except.ok (textResponse (Json.obj [
            ("action", Json.str "get"),
            ("componentName", Json.str info.componentName),
            ("propsCount", Json.num info.propsCount),
            ("requiredProps", Json.arr (info.requiredProps.map Json.str)),
            ("schema", info.schema),
            ("description", Json.str ("JSON Schema for " ++ name ++ " component props"))]))
        | Except.error e => Except.error e
      else
        Except.ok (textResponse (notFoundJson name (searchComponents name componentNames 5)))
  else
    Except.error ("Unknown action: " ++ args.action)

/-- The catch clause's error payload: the message plus the usage object. -/
def errorPayload (msg : String) : Json :=
  Json.obj [("error", Json.str msg), ("usage", usageJson)]

/-- The whole callback: run the try-block, catching any failure into the
error payload (tool.componentSchemas.ts lines 162–180). -/
def componentSchemasCallback (getSchema : String → Except String ComponentSchemaInfo)
    (componentNames : List String) (args : ToolArgs) : ToolResponse :=
  match runComponentSchemasAction getSchema componentNames args with
  | Except.ok r => r
  | Except.error msg => textResponse (errorPayload msg)

/-- Does a JSON object carry a field of the given name? -/
def jsonHasField : Json → String → Bool
  | Json.obj fields, k => fields.any (fun f => decide (f.1 = k))
  | _, _ => false

/-- Every successful branch of the try-block returns a single-text-item
response. -/
theorem runAction_ok_shape (getSchema : String → Except String ComponentSchemaInfo)
    (componentNames : List String) (args : ToolArgs) (r : ToolResponse)
    (h : runComponentSchemasAction getSchema componentNames args = Except.ok r) :
    ∃ p : Json, r = textResponse p := by
  simp only [runComponentSchemasAction] at h
  split_ifs at h with h1 h2 h3 <;>
    (repeat split at h) <;>
    (first
      | (cases h; exact ⟨_, rfl⟩)
      | cases h)

/-- C10: the component-schemas callback is total at its interface — every
call returns a single text content item, and whenever the try-block fails
(missing query for search, missing componentName for get, unknown action,
or a producer error) the callback returns the error payload carrying an
`error` and a `usage` field instead of raising. -/
theorem componentSchemasTool_total_and_catches
    (getSchema : String → Except String ComponentSchemaInfo)
    (componentNames : List String) (args : ToolArgs) :
    (∃ payload : Json,
      componentSchemasCallback getSchema componentNames args = textResponse payload) ∧
    (∀ msg, runComponentSchemasAction getSchema componentNames args = Except.error msg →
      componentSchemasCallback getSchema componentNames args =
        textResponse (errorPayload msg) ∧
      jsonHasField (errorPayload msg) "error" = true ∧
      jsonHasField (errorPayload msg) "usage" = true) ∧
    (args.action = "search" → isFalsyString args.query = true →
      runComponentSchemasAction getSchema componentNames args =
        Except.error "query is required when action is \"search\"") ∧
    (args.action = "get" → isFalsyString args.componentName = true →
      runComponentSchemasAction getSchema componentNames args =
        Except.error "componentName is required when action is \"get\"") ∧
    (args.action ≠ "list" → args.action ≠ "search" → args.action ≠ "get" →
      runComponentSchemasAction getSchema componentNames args =
        Except.error ("Unknown action: " ++ args.action)) := by
  refine ⟨?_, ?_, ?_, ?_, ?_⟩
  · cases hr : runComponentSchemasAction getSchema componentNames args with
    | ok r =>
      obtain ⟨p, hp⟩ := runAction_ok_shape getSchema componentNames args r hr
      exact ⟨p, by simp [componentSchemasCallback, hr, hp]⟩
    | error msg =>
      exact ⟨errorPayload msg, by simp [componentSchemasCallback, hr]⟩
  · intro msg hmsg
    exact ⟨by simp [componentSchemasCallback, hmsg], rfl, rfl⟩
  · intro ha hq
    simp only [runComponentSchemasAction]
    have h1 : ¬ args.action = "list" := by rw [ha]; decide
    rw [if_neg h1, if_pos ha, if_pos hq]
  · intro ha hn
    simp only [runComponentSchemasAction]
    have h1 : ¬ args.action = "list" := by rw [ha]; decide
    have h2 : ¬ args.action = "search" := by rw [ha]; decide
    rw [if_neg h1, if_neg h2, if_pos ha, if_pos hn]
  · intro h1 h2 h3
    simp only [runComponentSchemasAction]
    rw [if_neg h1, if_neg h2, if_neg h3]

/-- Witness for C10: a search call without a query, against a producer
that always fails, is caught and answered with the error payload. -/
theorem componentSchemasTool_total_and_catches_witness :
    (⟨"search", none, none, none⟩ : ToolArgs).action = "search" ∧
    isFalsyString (⟨"search", none, none, none⟩ : ToolArgs).query = true ∧
    runComponentSchemasAction (fun _ => Except.error "backend down") demoComponents
        ⟨"search", none, none, none⟩ =
      Except.error "query is required when action is \"search\"" ∧
    componentSchemasCallback (fun _ => Except.error "backend down") demoComponents
        ⟨"search", none, none, none⟩ =
      textResponse (errorPayload "query is required when action is \"search\"") ∧
    jsonHasField (errorPayload "query is required when action is \"search\"") "error" =
      true ∧
    jsonHasField (errorPayload "query is required when action is \"search\"") "usage" =
      true := by
  have h := componentSchemasTool_total_and_catches
    (fun _ => Except.error "backend down") demoComponents ⟨"search", none, none, none⟩
  have he := h.2.2.1 rfl rfl
  have hc := h.2.1 _ he
  exact ⟨rfl, rfl, he, hc.1, hc.2.1, hc.2.2⟩

end PatternflyMcp
